import Mathlib

set_option autoImplicit false

namespace ChannelRolePlugin

/-- Modelled from the spec: an opaque identifier that is either a string or a number
(the host framework's `ID` type, `@vendure/common/lib/shared-types`, not under src/). -/
inductive ID where
  | str (s : String)
  | num (n : Nat)
  deriving DecidableEq, Repr

/-- Modelled from the spec: the canonical string form of an identifier, so that the
numeric and string forms of the same id normalize to the same value. -/
def ID.normalize : ID → String
  | .str s => s
  | .num n => toString n

/-- Modelled from the spec: the identity-aware equality predicate (`idsAreEqual` from
the host framework, not under src/) that normalizes both representations before
comparing, treating numeric and string forms of the same id as equal. -/
def idsAreEqual (a b : ID) : Bool :=
  a.normalize == b.normalize

/-- User entity: only its id matters to this plugin. -/
structure UserEnt where
  id : ID
  deriving DecidableEq, Repr

/-- Channel entity with the metadata exposed by the permission view. -/
structure Channel where
  id : ID
  token : String
  code : String
  deriving DecidableEq, Repr

/-- Role entity: a named permission set. -/
structure Role where
  id : ID
  permissions : List String
  deriving DecidableEq, Repr

/-- ChannelRole junction entity: one persisted (user, channel, role) association,
with the row id assigned by the persistence layer. -/
structure ChannelRole where
  id : Nat
  user : UserEnt
  channel : Channel
  role : Role
  deriving DecidableEq, Repr

def ChannelRole.userId (cr : ChannelRole) : ID := cr.user.id

def ChannelRole.channelId (cr : ChannelRole) : ID := cr.channel.id

def ChannelRole.roleId (cr : ChannelRole) : ID := cr.role.id

/-- ChannelRoleInput from types.ts: a desired (channelId, roleId) pair. -/
structure ChannelRoleInput where
  channelId : ID
  roleId : ID
  deriving DecidableEq, Repr

/-- DeletionResult from the generated types: outcome tag of a delete call. -/
inductive DeletionResult where
  | DELETED
  | NOT_DELETED
  deriving DecidableEq, Repr

/-- DeletionResponse from the generated types: result tag plus optional message. -/
structure DeletionResponse where
  result : DeletionResult
  message : Option String
  deriving DecidableEq, Repr

/-- Errors thrown by the modelled operations. -/
inductive SvcError where
  | entityNotFound (entity : String) (id : ID)
  | channelRoleNotFound (id : Nat)
  | internalServerError (code : String) (message : String)
  | illegalOperationError (code : String)
  deriving DecidableEq, Repr

/-- The persisted ChannelRole table plus the next fresh row id. -/
structure StoreState where
  rows : List ChannelRole
  nextId : Nat
  deriving DecidableEq, Repr

/-- The fixed entity tables and the persistence layer's behaviour on `remove`:
`removeFails rid = some msg` means removing row `rid` throws with message `msg`. -/
structure Env where
  users : List UserEnt
  channels : List Channel
  roles : List Role
  removeFails : Nat → Option String

/-- Lookup of a User entity by id (`getEntityOrThrow` semantics, returning an Option). -/
def Env.lookupUser (env : Env) (i : ID) : Option UserEnt :=
  env.users.find? (fun u => idsAreEqual u.id i)

/-- Lookup of a Channel entity by id. -/
def Env.lookupChannel (env : Env) (i : ID) : Option Channel :=
  env.channels.find? (fun c => idsAreEqual c.id i)

/-- Lookup of a Role entity by id. -/
def Env.lookupRole (env : Env) (i : ID) : Option Role :=
  env.roles.find? (fun r => idsAreEqual r.id i)

/-- ChannelRoleService.create: loads User, Channel, Role by id, fails with a
NotFound error if any is missing, otherwise persists a new ChannelRole row
(with a fresh id assigned by the repository) and returns it. -/
def ChannelRoleService.create (env : Env) (s : StoreState)
    (userId channelId roleId : ID) : Except SvcError (ChannelRole × StoreState) :=
  match env.lookupUser userId with
  | none => .error (.entityNotFound "User" userId)
  | some user =>
    match env.lookupChannel channelId with
    | none => .error (.entityNotFound "Channel" channelId)
    | some channel =>
      match env.lookupRole roleId with
      | none => .error (.entityNotFound "Role" roleId)
      | some role =>
        let entity : ChannelRole := ⟨s.nextId, user, channel, role⟩
        .ok (entity, ⟨s.rows ++ [entity], s.nextId + 1⟩)

/-- The JavaScript expression `m || d` on an optional string: the default is used
both when the message is absent and when it is the empty (falsy) string. -/
def messageOrUnknown (m : Option String) (d : String) : String :=
  match m with
  | some msg => if msg = "" then d else msg
  | none => d

/-- ChannelRoleService.delete: loads the ChannelRole row by id, fails with a
NotFound error if absent; otherwise attempts removal, returning a DELETED
response on success and a NOT_DELETED response carrying the underlying error
message (rather than throwing) when the removal fails. -/
def ChannelRoleService.delete (env : Env) (s : StoreState) (id : Nat) :
    Except SvcError (DeletionResponse × StoreState) :=
  match s.rows.find? (fun r => r.id == id) with
  | none => .error (.channelRoleNotFound id)
  | some _ =>
    match env.removeFails id with
    | some msg => .ok (⟨DeletionResult.NOT_DELETED, some msg⟩, s)
    | none => .ok (⟨DeletionResult.DELETED, none⟩, ⟨s.rows.filter (fun r => r.id != id), s.nextId⟩)

/-- The `toAddPairs` loop of saveUserRoles: keep each input pair that has no
current association with the same (channelId, roleId) under `idsAreEqual`. -/
def computeToAdd (currentChannelRoles : List ChannelRole)
    (input : List ChannelRoleInput) : List ChannelRoleInput :=
  input.filter (fun channelRole =>
    (currentChannelRoles.find? (fun cr =>
      idsAreEqual cr.roleId channelRole.roleId &&
      idsAreEqual cr.channelId channelRole.channelId)).isNone)

/-- The `toRemoveChannelRoles` loop of saveUserRoles: keep each current
association whose (channelId, roleId) matches no input pair under `idsAreEqual`. -/
def computeToRemove (currentChannelRoles : List ChannelRole)
    (input : List ChannelRoleInput) : List ChannelRole :=
  currentChannelRoles.filter (fun channelRole =>
    (input.find? (fun cr =>
      idsAreEqual cr.roleId channelRole.roleId &&
      idsAreEqual cr.channelId channelRole.channelId)).isNone)

/-- The creation phase of saveUserRoles (the `Promise.all` over
`channelRoleService.create`, linearized): returns the first error if any,
the resulting store state, and the list of creation calls issued. -/
def createLoop (env : Env) (userId : ID) :
    StoreState → List ChannelRoleInput → Option SvcError × StoreState × List ChannelRoleInput
  | s, [] => (none, s, [])
  | s, pair :: rest =>
    match ChannelRoleService.create env s userId pair.channelId pair.roleId with
    | .error e => (some e, s, [pair])
    | .ok (_, s1) =>
      let r := createLoop env userId s1 rest
      (r.1, r.2.1, pair :: r.2.2)

/-- The removal phase of saveUserRoles: deletes the given associations one at a
time in order; a NOT_DELETED response aborts the loop with an
InternalServerError carrying the response message (or a default). Returns the
error if any, the resulting store state, and the row ids of the delete calls
issued. -/
def removeLoop (env : Env) :
    StoreState → List ChannelRole → Option SvcError × StoreState × List Nat
  | s, [] => (none, s, [])
  | s, channelRole :: rest =>
    match ChannelRoleService.delete env s channelRole.id with
    | .error e => (some e, s, [channelRole.id])
    | .ok (response, s1) =>
      if response.result = DeletionResult.NOT_DELETED then
        (some (.internalServerError "error.channel-role-deletion-failed"
          (messageOrUnknown response.message "Unknown error")), s1, [channelRole.id])
      else
        let r := removeLoop env s1 rest
        (r.1, r.2.1, channelRole.id :: r.2.2)

/-- The repository query `find where user.id = userId`: the current ChannelRole
rows of the given user. -/
def userRows (s : StoreState) (userId : ID) : List ChannelRole :=
  s.rows.filter (fun r => idsAreEqual r.userId userId)

/-- Observable outcome of one saveUserRoles invocation: the error thrown (if
any), the final store state, the creation calls issued, and the row ids of the
delete calls issued. -/
structure SaveOutcome where
  error : Option SvcError
  state : StoreState
  created : List ChannelRoleInput
  removeAttempts : List Nat

/-- ChannelRolePermissionResolverStrategy.saveUserRoles: load the current
associations of the user, compute the diff against the desired pairs, issue the
creations, then issue the removals sequentially. -/
def saveUserRoles (env : Env) (s : StoreState) (userId : ID)
    (input : List ChannelRoleInput) : SaveOutcome :=
  let currentChannelRoles := userRows s userId
  let toAddPairs := computeToAdd currentChannelRoles input
  let toRemoveChannelRoles := computeToRemove currentChannelRoles input
  match createLoop env userId s toAddPairs with
  | (some e, s1, log) => ⟨some e, s1, log, []⟩
  | (none, s1, log) =>
    let r := removeLoop env s1 toRemoveChannelRoles
    ⟨r.1, r.2.1, log, r.2.2⟩

/-- One entry of the permission view, as returned by getPermissionsForUser. -/
structure UserChannelPermissions where
  id : ID
  token : String
  code : String
  permissions : List String
  deriving DecidableEq, Repr

/-- ChannelRolePermissionResolverStrategy.getPermissionsForUser: one entry per
association of the user, pairing the channel metadata with the role's
permission set. -/
def getPermissionsForUser (s : StoreState) (userId : ID) : List UserChannelPermissions :=
  (userRows s userId).map (fun entry =>
    ⟨entry.channel.id, entry.channel.token, entry.channel.code, entry.role.permissions⟩)

/-- Request context: carried through unchanged, never inspected by the core. -/
structure RequestContext where
  apiType : String
  deriving DecidableEq, Repr

/-- The generated CreateAdministratorInput (fields irrelevant to the override). -/
structure CreateAdministratorInput where
  firstName : String
  lastName : String
  emailAddress : String
  password : String
  deriving DecidableEq, Repr

/-- The generated UpdateAdministratorInput (fields irrelevant to the override). -/
structure UpdateAdministratorInput where
  id : ID
  deriving DecidableEq, Repr

/-- Administrator entity (only its identity matters here). -/
structure Administrator where
  id : ID
  deriving DecidableEq, Repr

/-- The calls a resolver can make on the injected AdministratorService. -/
inductive ServiceCall where
  | administratorCreate
  | administratorUpdate
  deriving DecidableEq, Repr

/-- Observable outcome of a resolver mutation: which service calls it issued and
the value returned or error thrown. -/
structure ResolverOutcome where
  calls : List ServiceCall
  result : Except SvcError Administrator

/-- ChannelRoleResolver.createAdministrator override: throws an
IllegalOperationError before any service call. -/
def ChannelRoleResolver.createAdministrator (_ctx : RequestContext)
    (_args : CreateAdministratorInput) : ResolverOutcome :=
  ⟨[], .error (.illegalOperationError "error.channel-role-plugin-create-administrator-deprecated")⟩

/-- ChannelRoleResolver.updateAdministrator override: throws an
IllegalOperationError before any service call. -/
def ChannelRoleResolver.updateAdministrator (_ctx : RequestContext)
    (_args : UpdateAdministratorInput) : ResolverOutcome :=
  ⟨[], .error (.illegalOperationError "error.channel-role-plugin-update-administrator-deprecated")⟩

/-- Normalized (channel, role) pair of a desired input pair. -/
def inputPair (p : ChannelRoleInput) : String × String :=
  (p.channelId.normalize, p.roleId.normalize)

/-- Normalized (channel, role) pair of a persisted association. -/
def rowPair (r : ChannelRole) : String × String :=
  (r.channelId.normalize, r.roleId.normalize)

/-- The set of normalized pairs of a list of associations. -/
def rowPairs (rows : List ChannelRole) : Finset (String × String) :=
  (rows.map rowPair).toFinset

/-- The set of normalized pairs of a desired input list. -/
def inputPairs (input : List ChannelRoleInput) : Finset (String × String) :=
  (input.map inputPair).toFinset

/-- Store well-formedness: row ids are pairwise distinct and below the fresh
counter, as the persistence layer's key assignment guarantees. -/
def StoreWF (s : StoreState) : Prop :=
  (s.rows.map ChannelRole.id).Nodup ∧ ∀ r ∈ s.rows, r.id < s.nextId

/-- Concrete fixtures used by witnesses. -/
def userA : UserEnt := ⟨ID.num 42⟩

def chanA : Channel := ⟨ID.num 1, "token-1", "default-channel"⟩

def chanB : Channel := ⟨ID.num 2, "token-2", "second-channel"⟩

def roleA : Role := ⟨ID.num 10, ["ReadCatalog", "UpdateCatalog"]⟩

def roleB : Role := ⟨ID.num 20, ["ReadOrder"]⟩

def envA : Env := ⟨[userA], [chanA, chanB], [roleA, roleB], fun _ => none⟩

def envFail : Env := ⟨[userA], [chanA, chanB], [roleA, roleB],
  fun i => if i = 0 then some "boom" else none⟩

def emptyStore : StoreState := ⟨[], 0⟩

def rowA : ChannelRole := ⟨0, userA, chanA, roleA⟩

def rowA2 : ChannelRole := ⟨1, userA, chanA, roleB⟩

def rowStore : StoreState := ⟨[rowA], 1⟩

def twoRowStore : StoreState := ⟨[rowA, rowA2], 2⟩

def dupInput : List ChannelRoleInput := [⟨ID.num 1, ID.num 10⟩, ⟨ID.num 1, ID.num 10⟩]

theorem idsAreEqual_iff (a b : ID) : idsAreEqual a b = true ↔ a.normalize = b.normalize := by
  simp [idsAreEqual]

theorem matchRow_iff (cr : ChannelRole) (p : ChannelRoleInput) :
    (idsAreEqual cr.roleId p.roleId && idsAreEqual cr.channelId p.channelId) = true ↔
      rowPair cr = inputPair p := by
  simp [idsAreEqual, rowPair, inputPair, ChannelRole.roleId, ChannelRole.channelId,
    Prod.ext_iff, and_comm]

theorem matchInput_iff (p : ChannelRoleInput) (r : ChannelRole) :
    (idsAreEqual p.roleId r.roleId && idsAreEqual p.channelId r.channelId) = true ↔
      inputPair p = rowPair r := by
  simp [idsAreEqual, rowPair, inputPair, ChannelRole.roleId, ChannelRole.channelId,
    Prod.ext_iff, and_comm]

theorem mem_computeToAdd {current : List ChannelRole} {input : List ChannelRoleInput}
    {p : ChannelRoleInput} :
    p ∈ computeToAdd current input ↔
      p ∈ input ∧ ∀ cr ∈ current, rowPair cr ≠ inputPair p := by
  unfold computeToAdd
  simp only [List.mem_filter, Option.isNone_iff_eq_none, List.find?_eq_none]
  refine and_congr_right fun _ => ?_
  constructor
  · intro h cr hcr he
    exact h cr hcr ((matchRow_iff cr p).mpr he)
  · intro h cr hcr hb
    exact h cr hcr ((matchRow_iff cr p).mp hb)

theorem mem_computeToRemove {current : List ChannelRole} {input : List ChannelRoleInput}
    {r : ChannelRole} :
    r ∈ computeToRemove current input ↔
      r ∈ current ∧ ∀ p ∈ input, inputPair p ≠ rowPair r := by
  unfold computeToRemove
  simp only [List.mem_filter, Option.isNone_iff_eq_none, List.find?_eq_none]
  refine and_congr_right fun _ => ?_
  constructor
  · intro h p hp he
    exact h p hp ((matchInput_iff p r).mpr he)
  · intro h p hp hb
    exact h p hp ((matchInput_iff p r).mp hb)

theorem create_ok_spec {env : Env} {s : StoreState} {userId channelId roleId : ID}
    {row : ChannelRole} {s' : StoreState}
    (h : ChannelRoleService.create env s userId channelId roleId = .ok (row, s')) :
    s'.rows = s.rows ++ [row] ∧ s'.nextId = s.nextId + 1 ∧ row.id = s.nextId ∧
    idsAreEqual row.userId userId = true ∧
    idsAreEqual row.channelId channelId = true ∧
    idsAreEqual row.roleId roleId = true := by
  unfold ChannelRoleService.create at h
  rcases hu : env.lookupUser userId with _ | user
  · rw [hu] at h; simp at h
  · rw [hu] at h
    rcases hc : env.lookupChannel channelId with _ | channel
    · rw [hc] at h; simp at h
    · rw [hc] at h
      rcases hr : env.lookupRole roleId with _ | role
      · rw [hr] at h; simp at h
      · rw [hr] at h
        simp only [Except.ok.injEq, Prod.mk.injEq] at h
        obtain ⟨hrow, hs⟩ := h
        subst hrow
        subst hs
        have hu' := List.find?_some hu
        have hc' := List.find?_some hc
        have hr' := List.find?_some hr
        exact ⟨rfl, rfl, rfl, hu', hc', hr'⟩

theorem find?_id_isSome {rows : List ChannelRole} {cr : ChannelRole} (h : cr ∈ rows) :
    (rows.find? (fun r => r.id == cr.id)).isSome := by
  exact List.find?_isSome.mpr ⟨cr, h, by simp⟩

theorem delete_eq_of_fail {env : Env} {s : StoreState} {rid : Nat} {msg : String}
    (hfind : (s.rows.find? (fun r => r.id == rid)).isSome)
    (hmsg : env.removeFails rid = some msg) :
    ChannelRoleService.delete env s rid =
      .ok (⟨DeletionResult.NOT_DELETED, some msg⟩, s) := by
  rcases hf : s.rows.find? (fun r => r.id == rid) with _ | row
  · rw [hf] at hfind; cases hfind
  · simp [ChannelRoleService.delete, hf, hmsg]

theorem delete_eq_of_ok {env : Env} {s : StoreState} {rid : Nat}
    (hfind : (s.rows.find? (fun r => r.id == rid)).isSome)
    (hmsg : env.removeFails rid = none) :
    ChannelRoleService.delete env s rid =
      .ok (⟨DeletionResult.DELETED, none⟩,
           ⟨s.rows.filter (fun r => r.id != rid), s.nextId⟩) := by
  rcases hf : s.rows.find? (fun r => r.id == rid) with _ | row
  · rw [hf] at hfind; cases hfind
  · simp [ChannelRoleService.delete, hf, hmsg]

theorem forall₂_mem_left {α β : Type} {R : α → β → Prop} {l1 : List α} {l2 : List β}
    (h : List.Forall₂ R l1 l2) : ∀ a ∈ l1, ∃ b ∈ l2, R a b := by
  induction h with
  | nil => intro a ha; cases ha
  | cons hR _ ih =>
    intro a ha
    rcases List.mem_cons.mp ha with rfl | ha
    · exact ⟨_, List.mem_cons_self _ _, hR⟩
    · rcases ih a ha with ⟨b, hb, hRb⟩
      exact ⟨b, List.mem_cons_of_mem _ hb, hRb⟩

theorem forall₂_mem_right {α β : Type} {R : α → β → Prop} {l1 : List α} {l2 : List β}
    (h : List.Forall₂ R l1 l2) : ∀ b ∈ l2, ∃ a ∈ l1, R a b := by
  induction h with
  | nil => intro b hb; cases hb
  | cons hR _ ih =>
    intro b hb
    rcases List.mem_cons.mp hb with rfl | hb
    · exact ⟨_, List.mem_cons_self _ _, hR⟩
    · rcases ih b hb with ⟨a, ha, hRa⟩
      exact ⟨a, List.mem_cons_of_mem _ ha, hRa⟩

theorem createLoop_ok (env : Env) (userId : ID) :
    ∀ (ps : List ChannelRoleInput) (s s' : StoreState) (log : List ChannelRoleInput),
      createLoop env userId s ps = (none, s', log) →
      log = ps ∧ s'.nextId = s.nextId + ps.length ∧
      ∃ newRows : List ChannelRole,
        s'.rows = s.rows ++ newRows ∧
        newRows.map ChannelRole.id = List.range' s.nextId ps.length ∧
        List.Forall₂ (fun row p => idsAreEqual row.userId userId = true ∧
          rowPair row = inputPair p) newRows ps := by
  intro ps
  induction ps with
  | nil =>
    intro s s' log h
    simp only [createLoop, Prod.mk.injEq] at h
    obtain ⟨-, hs, hl⟩ := h
    subst hs
    subst hl
    exact ⟨rfl, by simp, [], by simp, by simp, List.Forall₂.nil⟩
  | cons pair rest ih =>
    intro s s' log h
    simp only [createLoop] at h
    split at h
    next e heq =>
      simp at h
    next row s1 heq =>
      rcases hrl : createLoop env userId s1 rest with ⟨e1, s2, log2⟩
      rw [hrl] at h
      simp only [Prod.mk.injEq] at h
      obtain ⟨he, hs, hl⟩ := h
      subst hs
      subst hl
      obtain ⟨hrows1, hnext1, hid, -, -, -⟩ := create_ok_spec heq
      obtain ⟨hlog, hnext, newRows, hrows, hids, hrel⟩ :=
        ih s1 s2 log2 (by rw [hrl, he])
      refine ⟨by rw [hlog], by rw [hnext, hnext1, List.length_cons]; omega,
        row :: newRows, ?_, ?_, ?_⟩
      · rw [hrows, hrows1, List.append_assoc, List.singleton_append]
      · rw [List.map_cons, hids, hnext1, hid, List.length_cons]
        rw [List.range'_succ]
      · obtain ⟨-, -, -, h4, h5, h6⟩ := create_ok_spec heq
        refine List.Forall₂.cons ⟨h4, ?_⟩ hrel
        rw [rowPair, inputPair, (idsAreEqual_iff _ _).mp h5, (idsAreEqual_iff _ _).mp h6]

theorem createLoop_log_mem (env : Env) (userId : ID) :
    ∀ (ps : List ChannelRoleInput) (s : StoreState) (p : ChannelRoleInput),
      p ∈ (createLoop env userId s ps).2.2 → p ∈ ps := by
  intro ps
  induction ps with
  | nil =>
    intro s p h
    simp [createLoop] at h
  | cons pair rest ih =>
    intro s p h
    simp only [createLoop] at h
    split at h
    next e heq =>
      simp at h
      simp [h]
    next row s1 heq =>
      simp only [List.mem_cons] at h
      rcases h with h | h
      · simp [h]
      · exact List.mem_cons_of_mem _ (ih s1 p h)

theorem delete_ok_cases {env : Env} {s : StoreState} {rid : Nat} {resp : DeletionResponse}
    {s' : StoreState} (h : ChannelRoleService.delete env s rid = .ok (resp, s')) :
    (∃ msg, env.removeFails rid = some msg ∧
      resp = ⟨DeletionResult.NOT_DELETED, some msg⟩ ∧ s' = s) ∨
    (env.removeFails rid = none ∧ resp = ⟨DeletionResult.DELETED, none⟩ ∧
      s' = ⟨s.rows.filter (fun r => r.id != rid), s.nextId⟩) := by
  unfold ChannelRoleService.delete at h
  split at h
  next hf => simp at h
  next row hf =>
    split at h
    next msg hmsg =>
      simp only [Except.ok.injEq, Prod.mk.injEq] at h
      exact Or.inl ⟨msg, hmsg, h.1.symm, h.2.symm⟩
    next hmsg =>
      simp only [Except.ok.injEq, Prod.mk.injEq] at h
      exact Or.inr ⟨hmsg, h.1.symm, h.2.symm⟩

theorem removeLoop_ok (env : Env) :
    ∀ (L : List ChannelRole) (s s' : StoreState) (log : List Nat),
      removeLoop env s L = (none, s', log) →
      log = L.map ChannelRole.id ∧ s'.nextId = s.nextId ∧
      s'.rows = s.rows.filter (fun r => L.all (fun cr => r.id != cr.id)) := by
  intro L
  induction L with
  | nil =>
    intro s s' log h
    simp only [removeLoop, Prod.mk.injEq] at h
    obtain ⟨-, hs, hl⟩ := h
    subst hs
    subst hl
    refine ⟨rfl, rfl, ?_⟩
    simp
  | cons cr rest ih =>
    intro s s' log h
    simp only [removeLoop] at h
    split at h
    next e heq =>
      simp at h
    next resp s1 heq =>
      split at h
      next hres =>
        simp at h
      next hres =>
        rcases hrl : removeLoop env s1 rest with ⟨e1, s2, log2⟩
        rw [hrl] at h
        simp only [Prod.mk.injEq] at h
        obtain ⟨he, hs, hl⟩ := h
        subst hs
        subst hl
        rcases delete_ok_cases heq with ⟨msg, -, hresp, -⟩ | ⟨-, hresp, hstate⟩
        · rw [hresp] at hres
          simp at hres
        · have hs1rows : s1.rows = s.rows.filter (fun r => r.id != cr.id) := by rw [hstate]
          have hs1next : s1.nextId = s.nextId := by rw [hstate]
          obtain ⟨hlog, hnext, hrows⟩ := ih s1 s2 log2 (by rw [hrl, he])
          refine ⟨by rw [List.map_cons, hlog], by rw [hnext, hs1next], ?_⟩
          rw [hrows, hs1rows, List.filter_filter]
          refine List.filter_congr ?_
          intro a _
          rw [List.all_cons, Bool.and_comm]

theorem removeLoop_fail (env : Env) :
    ∀ (L1 : List ChannelRole) (crK : ChannelRole) (L2 : List ChannelRole) (s : StoreState)
      (msg : String),
      (L1 ++ crK :: L2).Sublist s.rows → (s.rows.map ChannelRole.id).Nodup →
      (∀ cr ∈ L1, env.removeFails cr.id = none) → env.removeFails crK.id = some msg →
      removeLoop env s (L1 ++ crK :: L2) =
        (some (.internalServerError "error.channel-role-deletion-failed"
           (messageOrUnknown (some msg) "Unknown error")),
         ⟨s.rows.filter (fun r => L1.all (fun cr => r.id != cr.id)), s.nextId⟩,
         L1.map ChannelRole.id ++ [crK.id]) := by
  intro L1
  induction L1 with
  | nil =>
    intro crK L2 s msg hsub hnd hok hfail
    have hmem : crK ∈ s.rows := hsub.subset (List.mem_cons_self _ _)
    have hfind := find?_id_isSome hmem
    simp only [List.nil_append, removeLoop, delete_eq_of_fail hfind hfail]
    simp

  | cons cr0 L1' ih =>
    intro crK L2 s msg hsub hnd hok hfail
    have hmem : cr0 ∈ s.rows := hsub.subset (List.mem_cons_self _ _)
    have hfind := find?_id_isSome hmem
    have h0 : env.removeFails cr0.id = none := hok cr0 (List.mem_cons_self _ _)
    have hndsub : ((cr0 :: (L1' ++ crK :: L2)).map ChannelRole.id).Nodup :=
      List.Nodup.sublist (hsub.map ChannelRole.id) hnd
    have hid_tail : ∀ r ∈ L1' ++ crK :: L2, (r.id != cr0.id) = true := by
      intro r hr
      have h1 : cr0.id ∉ (L1' ++ crK :: L2).map ChannelRole.id :=
        (List.nodup_cons.mp (by simpa using hndsub)).1
      have : r.id ∈ (L1' ++ crK :: L2).map ChannelRole.id := List.mem_map_of_mem _ hr
      simp only [bne_iff_ne, ne_eq]
      intro hEq
      exact h1 (hEq ▸ this)
    have htail_sub : (L1' ++ crK :: L2).Sublist
        (s.rows.filter (fun r => r.id != cr0.id)) := by
      have h1 : (L1' ++ crK :: L2).filter (fun r => r.id != cr0.id) = L1' ++ crK :: L2 :=
        List.filter_eq_self.mpr hid_tail
      have h2 : ((L1' ++ crK :: L2).filter (fun r => r.id != cr0.id)).Sublist
          (s.rows.filter (fun r => r.id != cr0.id)) :=
        (List.sublist_of_cons_sublist hsub).filter _
      exact h1 ▸ h2
    have hnd1 : ((s.rows.filter (fun r => r.id != cr0.id)).map ChannelRole.id).Nodup :=
      List.Nodup.sublist ((List.filter_sublist s.rows).map ChannelRole.id) hnd
    simp only [List.cons_append, removeLoop, delete_eq_of_ok hfind h0, List.append_eq]
    rw [ih crK L2 ⟨s.rows.filter (fun r => r.id != cr0.id), s.nextId⟩ msg htail_sub hnd1
      (fun cr h => hok cr (List.mem_cons_of_mem _ h)) hfail]
    have hstate_eq : (s.rows.filter (fun r => r.id != cr0.id)).filter
        (fun r => L1'.all (fun cr => r.id != cr.id)) =
        s.rows.filter (fun r => (cr0 :: L1').all (fun cr => r.id != cr.id)) := by
      rw [List.filter_filter]
      refine List.filter_congr ?_
      intro a _
      rw [List.all_cons, Bool.and_comm]
    simp [hstate_eq]

theorem save_eq_of_createLoop_err {env : Env} {s : StoreState} {userId : ID}
    {input : List ChannelRoleInput} {e : SvcError} {s1 : StoreState}
    {log : List ChannelRoleInput}
    (h : createLoop env userId s (computeToAdd (userRows s userId) input) = (some e, s1, log)) :
    saveUserRoles env s userId input = ⟨some e, s1, log, []⟩ := by
  simp only [saveUserRoles, h]

theorem save_eq_of_createLoop_ok {env : Env} {s : StoreState} {userId : ID}
    {input : List ChannelRoleInput} {s1 : StoreState} {log : List ChannelRoleInput}
    (h : createLoop env userId s (computeToAdd (userRows s userId) input) = (none, s1, log)) :
    saveUserRoles env s userId input =
      ⟨(removeLoop env s1 (computeToRemove (userRows s userId) input)).1,
       (removeLoop env s1 (computeToRemove (userRows s userId) input)).2.1,
       log,
       (removeLoop env s1 (computeToRemove (userRows s userId) input)).2.2⟩ := by
  simp only [saveUserRoles, h]

theorem save_ok_spec {env : Env} {s : StoreState} {userId : ID}
    {input : List ChannelRoleInput}
    (h : (saveUserRoles env s userId input).error = none) :
    ∃ newRows : List ChannelRole,
      (saveUserRoles env s userId input).state.rows =
        (s.rows ++ newRows).filter
          (fun r => (computeToRemove (userRows s userId) input).all
            (fun cr => r.id != cr.id)) ∧
      (saveUserRoles env s userId input).created =
        computeToAdd (userRows s userId) input ∧
      (saveUserRoles env s userId input).removeAttempts =
        (computeToRemove (userRows s userId) input).map ChannelRole.id ∧
      newRows.map ChannelRole.id =
        List.range' s.nextId (computeToAdd (userRows s userId) input).length ∧
      List.Forall₂ (fun row p => idsAreEqual row.userId userId = true ∧
        rowPair row = inputPair p) newRows (computeToAdd (userRows s userId) input) := by
  rcases hcl : createLoop env userId s (computeToAdd (userRows s userId) input)
    with ⟨e, s1, log⟩
  cases e with
  | some e =>
    rw [save_eq_of_createLoop_err hcl] at h
    cases h
  | none =>
    obtain ⟨hlog, hnext1, newRows, hrows1, hids, hrel⟩ :=
      createLoop_ok env userId _ s s1 log hcl
    have hsave := save_eq_of_createLoop_ok hcl
    rw [hsave] at h
    rcases hrl : removeLoop env s1 (computeToRemove (userRows s userId) input)
      with ⟨e1, s2, rlog⟩
    rw [hrl] at h
    simp only at h
    subst h
    obtain ⟨hrlog, hnext2, hrows2⟩ := removeLoop_ok env _ s1 s2 rlog (by rw [hrl])
    refine ⟨newRows, ?_, ?_, ?_, hids, hrel⟩
    · rw [hsave, hrl]
      simp only
      rw [hrows2, hrows1]
    · rw [hsave]
      simp only
      exact hlog
    · rw [hsave, hrl]
      simp only
      exact hrlog

theorem save_fail_spec {env : Env} {s : StoreState} {userId : ID}
    {input : List ChannelRoleInput} {L1 L2 : List ChannelRole} {crK : ChannelRole}
    {msg : String} {s1 : StoreState} {clog : List ChannelRoleInput}
    (hwf : StoreWF s)
    (hcl : createLoop env userId s (computeToAdd (userRows s userId) input) =
      (none, s1, clog))
    (hsplit : computeToRemove (userRows s userId) input = L1 ++ crK :: L2)
    (hok : ∀ cr ∈ L1, env.removeFails cr.id = none)
    (hfail : env.removeFails crK.id = some msg) :
    (saveUserRoles env s userId input).error =
      some (.internalServerError "error.channel-role-deletion-failed"
        (messageOrUnknown (some msg) "Unknown error")) ∧
    (saveUserRoles env s userId input).removeAttempts =
      L1.map ChannelRole.id ++ [crK.id] ∧
    (saveUserRoles env s userId input).state.rows =
      s1.rows.filter (fun r => L1.all (fun cr => r.id != cr.id)) := by
  obtain ⟨-, -, newRows, hrows1, hids, -⟩ := createLoop_ok env userId _ s s1 clog hcl
  have hndnew : (newRows.map ChannelRole.id).Nodup := by
    rw [hids]
    exact List.nodup_range' _ _
  have hbound_new : ∀ i ∈ newRows.map ChannelRole.id, s.nextId ≤ i := by
    intro i hi
    rw [hids] at hi
    exact (List.mem_range'_1.mp hi).1
  have hnd1 : (s1.rows.map ChannelRole.id).Nodup := by
    rw [hrows1, List.map_append, List.nodup_append]
    refine ⟨hwf.1, hndnew, ?_⟩
    intro i hiOld hiNew
    rcases List.mem_map.mp hiOld with ⟨r, hr, rfl⟩
    have h1 := hwf.2 r hr
    have h2 := hbound_new _ hiNew
    omega
  have hsub : (L1 ++ crK :: L2).Sublist s1.rows := by
    rw [← hsplit, hrows1]
    have h1 : (computeToRemove (userRows s userId) input).Sublist (userRows s userId) :=
      List.filter_sublist _
    have h2 : (userRows s userId).Sublist s.rows := List.filter_sublist _
    exact (h1.trans h2).trans (List.sublist_append_left _ _)
  have hrem := removeLoop_fail env L1 crK L2 s1 msg hsub hnd1 hok hfail
  have hsave := save_eq_of_createLoop_ok hcl
  rw [hsave, hsplit, hrem]
  exact ⟨rfl, rfl, rfl⟩

theorem save_ok_user_pairs {env : Env} {s : StoreState} {userId : ID}
    {input : List ChannelRoleInput} (hwf : StoreWF s)
    (h : (saveUserRoles env s userId input).error = none) :
    (∀ r ∈ userRows (saveUserRoles env s userId input).state userId,
      ∃ p ∈ input, inputPair p = rowPair r) ∧
    (∀ p ∈ input,
      ∃ r ∈ userRows (saveUserRoles env s userId input).state userId,
        rowPair r = inputPair p) := by
  obtain ⟨newRows, hrows, -, -, hids, hrel⟩ := save_ok_spec h
  have hmem_final : ∀ r, r ∈ userRows (saveUserRoles env s userId input).state userId ↔
      ((r ∈ s.rows ∨ r ∈ newRows) ∧
       (computeToRemove (userRows s userId) input).all (fun cr => r.id != cr.id) = true ∧
       idsAreEqual r.userId userId = true) := by
    intro r
    rw [userRows, hrows, List.mem_filter, List.mem_filter, List.mem_append]
    tauto
  constructor
  · intro r hr
    obtain ⟨hsrc, hrem, huser⟩ := (hmem_final r).mp hr
    rcases hsrc with hold | hnew
    · have hcur : r ∈ userRows s userId := List.mem_filter.mpr ⟨hold, huser⟩
      by_contra hnone
      push_neg at hnone
      have hrrem : r ∈ computeToRemove (userRows s userId) input :=
        mem_computeToRemove.mpr ⟨hcur, hnone⟩
      have := (List.all_eq_true.mp hrem) r hrrem
      simp at this
    · rcases forall₂_mem_left hrel r hnew with ⟨p, hp, -, hpe⟩
      exact ⟨p, (mem_computeToAdd.mp hp).1, hpe.symm⟩
  · intro p hp
    by_cases hcur : ∃ cr ∈ userRows s userId, rowPair cr = inputPair p
    · rcases hcur with ⟨cr, hcr, hcre⟩
      obtain ⟨hcrold, hcruser⟩ := List.mem_filter.mp hcr
      refine ⟨cr, (hmem_final cr).mpr ⟨Or.inl hcrold, ?_, hcruser⟩, hcre⟩
      rw [List.all_eq_true]
      intro crR hcrR
      obtain ⟨hcrRcur, hcrRno⟩ := mem_computeToRemove.mp hcrR
      have hcrRold := (List.mem_filter.mp hcrRcur).1
      simp only [bne_iff_ne, ne_eq]
      intro hidEq
      have : cr = crR := List.inj_on_of_nodup_map hwf.1 hcrold hcrRold hidEq
      exact hcrRno p hp (by rw [← this, hcre])
    · push_neg at hcur
      have hpA : p ∈ computeToAdd (userRows s userId) input :=
        mem_computeToAdd.mpr ⟨hp, fun cr hcr => hcur cr hcr⟩
      rcases forall₂_mem_right hrel p hpA with ⟨row, hrow, huser, hrowe⟩
      refine ⟨row, (hmem_final row).mpr ⟨Or.inr hrow, ?_, huser⟩, hrowe⟩
      rw [List.all_eq_true]
      intro crR hcrR
      obtain ⟨hcrRcur, -⟩ := mem_computeToRemove.mp hcrR
      have hcrRold := (List.mem_filter.mp hcrRcur).1
      have hlow := hwf.2 crR hcrRold
      have hhigh : s.nextId ≤ row.id := by
        have : row.id ∈ newRows.map ChannelRole.id := List.mem_map_of_mem _ hrow
        rw [hids] at this
        exact (List.mem_range'_1.mp this).1
      simp only [bne_iff_ne, ne_eq]
      omega

/-- C5: the store's Create fails with NotFound when any of the three referenced
ids does not resolve (persisting nothing, since no new state is produced), and
when all three resolve it persists and returns a new association referencing
exactly those three entities. -/
theorem c5_create_referential_integrity (env : Env) (s : StoreState)
    (userId channelId roleId : ID) :
    ((env.lookupUser userId = none ∨ env.lookupChannel channelId = none ∨
        env.lookupRole roleId = none) →
      ∃ entity i, ChannelRoleService.create env s userId channelId roleId =
        .error (.entityNotFound entity i)) ∧
    (∀ user channel role, env.lookupUser userId = some user →
      env.lookupChannel channelId = some channel → env.lookupRole roleId = some role →
      ChannelRoleService.create env s userId channelId roleId =
        .ok (⟨s.nextId, user, channel, role⟩,
             ⟨s.rows ++ [⟨s.nextId, user, channel, role⟩], s.nextId + 1⟩)) := by
  constructor
  · intro h
    rcases hu : env.lookupUser userId with _ | user
    · exact ⟨"User", userId, by simp [ChannelRoleService.create, hu]⟩
    · rcases hc : env.lookupChannel channelId with _ | channel
      · exact ⟨"Channel", channelId, by simp [ChannelRoleService.create, hu, hc]⟩
      · rcases hr : env.lookupRole roleId with _ | role
        · exact ⟨"Role", roleId, by simp [ChannelRoleService.create, hu, hc, hr]⟩
        · rcases h with h | h | h
          · rw [hu] at h; cases h
          · rw [hc] at h; cases h
          · rw [hr] at h; cases h
  · intro user channel role hu hc hr
    simp [ChannelRoleService.create, hu, hc, hr]

theorem c5_witness :
    envA.lookupChannel (ID.num 999) = none ∧
    (∃ entity i, ChannelRoleService.create envA emptyStore (ID.num 42) (ID.num 999) (ID.num 10) =
      .error (.entityNotFound entity i)) ∧
    ChannelRoleService.create envA emptyStore (ID.num 42) (ID.num 1) (ID.num 10) =
      .ok (⟨0, userA, chanA, roleA⟩, ⟨[⟨0, userA, chanA, roleA⟩], 1⟩) := by
  refine ⟨by decide, ?_, ?_⟩
  · exact (c5_create_referential_integrity envA emptyStore (ID.num 42) (ID.num 999)
      (ID.num 10)).1 (Or.inr (Or.inl (by decide)))
  · exact (c5_create_referential_integrity envA emptyStore (ID.num 42) (ID.num 1)
      (ID.num 10)).2 userA chanA roleA (by decide) (by decide) (by decide)

/-- C6: the store's Delete fails with NotFound when the association id does not
resolve; when it resolves, a failing removal yields a typed NOT_DELETED response
carrying the underlying error message with the store unchanged, and a successful
removal yields a DELETED response with the row removed. -/
theorem c6_delete_soft_failure (env : Env) (s : StoreState) (rid : Nat) :
    (s.rows.find? (fun r => r.id == rid) = none →
      ChannelRoleService.delete env s rid = .error (.channelRoleNotFound rid)) ∧
    ((∃ row, s.rows.find? (fun r => r.id == rid) = some row) →
      (∀ msg, env.removeFails rid = some msg →
        ChannelRoleService.delete env s rid =
          .ok (⟨DeletionResult.NOT_DELETED, some msg⟩, s)) ∧
      (env.removeFails rid = none →
        ChannelRoleService.delete env s rid =
          .ok (⟨DeletionResult.DELETED, none⟩,
               ⟨s.rows.filter (fun r => r.id != rid), s.nextId⟩))) := by
  constructor
  · intro h
    simp [ChannelRoleService.delete, h]
  · rintro ⟨row, hrow⟩
    constructor
    · intro msg hmsg
      simp [ChannelRoleService.delete, hrow, hmsg]
    · intro hnone
      simp [ChannelRoleService.delete, hrow, hnone]

theorem c6_witness :
    ChannelRoleService.delete envFail rowStore 5 = .error (.channelRoleNotFound 5) ∧
    ChannelRoleService.delete envFail rowStore 0 =
      .ok (⟨DeletionResult.NOT_DELETED, some "boom"⟩, rowStore) ∧
    ChannelRoleService.delete envA rowStore 0 =
      .ok (⟨DeletionResult.DELETED, none⟩, ⟨[], 1⟩) := by
  refine ⟨?_, ?_, ?_⟩
  · exact (c6_delete_soft_failure envFail rowStore 5).1 (by decide)
  · exact ((c6_delete_soft_failure envFail rowStore 0).2 ⟨rowA, by decide⟩).1 "boom" (by decide)
  · exact ((c6_delete_soft_failure envA rowStore 0).2 ⟨rowA, by decide⟩).2 (by decide)

/-- C7: getPermissionsForUser returns exactly one entry per association of the
user, each pairing that association's channel identity, token and code with the
role's permission set, without merging entries for a repeated channel, and the
empty sequence for a user with no associations. -/
theorem c7_permission_view_shape (s : StoreState) (userId : ID) :
    (getPermissionsForUser s userId).length = (userRows s userId).length ∧
    (∀ i : Nat, (getPermissionsForUser s userId)[i]? =
      ((userRows s userId)[i]?).map (fun entry =>
        ⟨entry.channel.id, entry.channel.token, entry.channel.code,
          entry.role.permissions⟩)) ∧
    (userRows s userId = [] → getPermissionsForUser s userId = []) := by
  refine ⟨?_, ?_, ?_⟩
  · simp [getPermissionsForUser]
  · intro i
    simp [getPermissionsForUser, List.getElem?_map]
  · intro h
    simp [getPermissionsForUser, h]

theorem c7_witness :
    (getPermissionsForUser twoRowStore (ID.num 42)).length = 2 ∧
    (getPermissionsForUser twoRowStore (ID.num 42))[0]? =
      some ⟨ID.num 1, "token-1", "default-channel", ["ReadCatalog", "UpdateCatalog"]⟩ ∧
    (getPermissionsForUser twoRowStore (ID.num 42))[1]? =
      some ⟨ID.num 1, "token-1", "default-channel", ["ReadOrder"]⟩ ∧
    getPermissionsForUser emptyStore (ID.num 42) = [] := by
  have h := c7_permission_view_shape twoRowStore (ID.num 42)
  have h0 := c7_permission_view_shape emptyStore (ID.num 42)
  refine ⟨?_, ?_, ?_, ?_⟩
  · rw [h.1]; decide
  · rw [h.2.1 0]; decide
  · rw [h.2.1 1]; decide
  · exact h0.2.2 (by decide)

/-- C9: the overridden createAdministrator and updateAdministrator mutations
unconditionally throw an IllegalOperationError, issuing no service call, and
never return an Administrator. -/
theorem c9_resolver_overrides_throw :
    ∀ (ctx : RequestContext) (argsC : CreateAdministratorInput)
      (argsU : UpdateAdministratorInput),
      (ChannelRoleResolver.createAdministrator ctx argsC).calls = [] ∧
      (ChannelRoleResolver.createAdministrator ctx argsC).result =
        .error (.illegalOperationError
          "error.channel-role-plugin-create-administrator-deprecated") ∧
      (ChannelRoleResolver.updateAdministrator ctx argsU).calls = [] ∧
      (ChannelRoleResolver.updateAdministrator ctx argsU).result =
        .error (.illegalOperationError
          "error.channel-role-plugin-update-administrator-deprecated") := by
  intro ctx argsC argsU
  exact ⟨rfl, rfl, rfl, rfl⟩

/-- C2 counterexample: with no current associations and a desired list holding
the same (channelId, roleId) pair twice, saveUserRoles issues two creations for
that pair (the diff computation does not collapse the duplicates), ending with
two persisted rows for the pair. -/
theorem c2_counterexample :
    dupInput.get ⟨0, by decide⟩ = dupInput.get ⟨1, by decide⟩ ∧
    (saveUserRoles envA emptyStore (ID.num 42) dupInput).error = none ∧
    (saveUserRoles envA emptyStore (ID.num 42) dupInput).created = dupInput ∧
    ((saveUserRoles envA emptyStore (ID.num 42) dupInput).state.rows.filter
      (fun r => idsAreEqual r.channelId (ID.num 1) &&
        idsAreEqual r.roleId (ID.num 10))).length = 2 := by
  decide

/-- C1: for every user and desired list, when saveUserRoles completes without
error the persisted set of (channelId, roleId) pairs of the user equals the
desired list viewed as a set (under the id-normalizing equality), regardless of
the order of the list and of duplicates in it. -/
theorem c1_convergence (env : Env) (s : StoreState) (userId : ID)
    (input : List ChannelRoleInput) (hwf : StoreWF s)
    (h : (saveUserRoles env s userId input).error = none) :
    rowPairs (userRows (saveUserRoles env s userId input).state userId) =
      inputPairs input := by
  obtain ⟨h1, h2⟩ := save_ok_user_pairs hwf h
  ext x
  simp only [rowPairs, inputPairs, List.mem_toFinset, List.mem_map]
  constructor
  · rintro ⟨r, hr, rfl⟩
    rcases h1 r hr with ⟨p, hp, hpe⟩
    exact ⟨p, hp, hpe⟩
  · rintro ⟨p, hp, rfl⟩
    rcases h2 p hp with ⟨r, hr, hre⟩
    exact ⟨r, hr, hre⟩

theorem c1_witness :
    StoreWF emptyStore ∧
    (saveUserRoles envA emptyStore (ID.num 42) [⟨ID.num 1, ID.num 10⟩]).error = none ∧
    rowPairs (userRows (saveUserRoles envA emptyStore (ID.num 42)
        [⟨ID.num 1, ID.num 10⟩]).state (ID.num 42)) =
      inputPairs [⟨ID.num 1, ID.num 10⟩] := by
  refine ⟨⟨by decide, by decide⟩, by decide, ?_⟩
  exact c1_convergence envA emptyStore (ID.num 42) [⟨ID.num 1, ID.num 10⟩]
    ⟨by decide, by decide⟩ (by decide)

/-- C3: immediately re-running saveUserRoles with the same desired list on the
state produced by a successful run computes an empty diff, issues no creations
and no deletions, and leaves the state unchanged. -/
theorem c3_idempotence (env : Env) (s : StoreState) (userId : ID)
    (input : List ChannelRoleInput) (hwf : StoreWF s)
    (h : (saveUserRoles env s userId input).error = none) :
    computeToAdd (userRows (saveUserRoles env s userId input).state userId) input = [] ∧
    computeToRemove (userRows (saveUserRoles env s userId input).state userId) input = [] ∧
    saveUserRoles env (saveUserRoles env s userId input).state userId input =
      ⟨none, (saveUserRoles env s userId input).state, [], []⟩ := by
  obtain ⟨h1, h2⟩ := save_ok_user_pairs hwf h
  have hAdd : computeToAdd
      (userRows (saveUserRoles env s userId input).state userId) input = [] := by
    unfold computeToAdd
    rw [List.filter_eq_nil_iff]
    intro p hp hisnone
    rw [Option.isNone_iff_eq_none, List.find?_eq_none] at hisnone
    rcases h2 p hp with ⟨r, hr, hre⟩
    exact hisnone r hr ((matchRow_iff r p).mpr hre)
  have hRem : computeToRemove
      (userRows (saveUserRoles env s userId input).state userId) input = [] := by
    unfold computeToRemove
    rw [List.filter_eq_nil_iff]
    intro r hr hisnone
    rw [Option.isNone_iff_eq_none, List.find?_eq_none] at hisnone
    rcases h1 r hr with ⟨p, hp, hpe⟩
    exact hisnone p hp ((matchInput_iff p r).mpr hpe)
  refine ⟨hAdd, hRem, ?_⟩
  set s' := (saveUserRoles env s userId input).state with hs'
  simp only [saveUserRoles, hAdd, hRem, createLoop, removeLoop]

theorem c3_witness :
    StoreWF emptyStore ∧
    (saveUserRoles envA emptyStore (ID.num 42) [⟨ID.num 2, ID.num 20⟩]).error = none ∧
    (computeToAdd (userRows (saveUserRoles envA emptyStore (ID.num 42)
        [⟨ID.num 2, ID.num 20⟩]).state (ID.num 42)) [⟨ID.num 2, ID.num 20⟩] = [] ∧
     computeToRemove (userRows (saveUserRoles envA emptyStore (ID.num 42)
        [⟨ID.num 2, ID.num 20⟩]).state (ID.num 42)) [⟨ID.num 2, ID.num 20⟩] = [] ∧
     saveUserRoles envA (saveUserRoles envA emptyStore (ID.num 42)
        [⟨ID.num 2, ID.num 20⟩]).state (ID.num 42) [⟨ID.num 2, ID.num 20⟩] =
       ⟨none, (saveUserRoles envA emptyStore (ID.num 42)
          [⟨ID.num 2, ID.num 20⟩]).state, [], []⟩) := by
  refine ⟨⟨by decide, by decide⟩, by decide, ?_⟩
  exact c3_idempotence envA emptyStore (ID.num 42) [⟨ID.num 2, ID.num 20⟩]
    ⟨by decide, by decide⟩ (by decide)

/-- C2 amended: within one Save the desired list is NOT collapsed to a set when
computing the additions: for each pair value, if some current association
matches it then no creation is issued for it, and otherwise one creation is
issued per occurrence of that pair in the input list, so duplicated occurrences
each produce their own creation. -/
theorem c2_duplicates_each_create (env : Env) (s : StoreState) (userId : ID)
    (input : List ChannelRoleInput) (p : ChannelRoleInput)
    (h : (saveUserRoles env s userId input).error = none) :
    (saveUserRoles env s userId input).created.countP
        (fun q => decide (inputPair q = inputPair p)) =
      if (userRows s userId).any (fun cr => decide (rowPair cr = inputPair p)) then 0
      else input.countP (fun q => decide (inputPair q = inputPair p)) := by
  obtain ⟨newRows, -, hcreated, -⟩ := save_ok_spec h
  rw [hcreated]
  unfold computeToAdd
  rw [List.countP_filter]
  by_cases hcur :
      (userRows s userId).any (fun cr => decide (rowPair cr = inputPair p)) = true
  · rw [if_pos hcur]
    refine List.countP_eq_zero.mpr ?_
    intro q hq hq'
    rw [Bool.and_eq_true] at hq'
    obtain ⟨hqp, hnone⟩ := hq'
    rw [Option.isNone_iff_eq_none, List.find?_eq_none] at hnone
    rcases List.any_eq_true.mp hcur with ⟨cr, hcr, hcrp⟩
    have hqp' : inputPair q = inputPair p := of_decide_eq_true hqp
    have hcrp' : rowPair cr = inputPair p := of_decide_eq_true hcrp
    exact hnone cr hcr ((matchRow_iff cr q).mpr (by rw [hcrp', hqp']))
  · rw [if_neg hcur]
    refine List.countP_congr ?_
    intro q hq
    constructor
    · intro hq'
      exact (Bool.and_eq_true _ _).mp hq' |>.1
    · intro hqp
      rw [Bool.and_eq_true]
      refine ⟨hqp, ?_⟩
      rw [Option.isNone_iff_eq_none, List.find?_eq_none]
      intro cr hcr hmatch
      have hcrq : rowPair cr = inputPair q := (matchRow_iff cr q).mp hmatch
      have hqp' : inputPair q = inputPair p := of_decide_eq_true hqp
      exact hcur (List.any_eq_true.mpr
        ⟨cr, hcr, decide_eq_true (by rw [hcrq, hqp'])⟩)

theorem c2_witness :
    (saveUserRoles envA emptyStore (ID.num 42) dupInput).error = none ∧
    ((saveUserRoles envA emptyStore (ID.num 42) dupInput).created.countP
        (fun q => decide (inputPair q = inputPair ⟨ID.num 1, ID.num 10⟩)) =
      if (userRows emptyStore (ID.num 42)).any
          (fun cr => decide (rowPair cr = inputPair ⟨ID.num 1, ID.num 10⟩)) then 0
      else dupInput.countP
        (fun q => decide (inputPair q = inputPair ⟨ID.num 1, ID.num 10⟩))) ∧
    dupInput.countP (fun q => decide (inputPair q = inputPair ⟨ID.num 1, ID.num 10⟩)) = 2 := by
  refine ⟨by decide, ?_, by decide⟩
  exact c2_duplicates_each_create envA emptyStore (ID.num 42) dupInput
    ⟨ID.num 1, ID.num 10⟩ (by decide)

/-- C4: when, after a successful creation phase, the deletions up to some point
succeed and the next deletion reports NOT_DELETED, saveUserRoles throws an
InternalServerError carrying the store's failure message, issues no further
delete calls, and the preceding deletions remain applied in the final state. -/
theorem c4_deletion_failure_aborts (env : Env) (s : StoreState) (userId : ID)
    (input : List ChannelRoleInput) (L1 L2 : List ChannelRole) (crK : ChannelRole)
    (msg : String) (s1 : StoreState) (clog : List ChannelRoleInput)
    (hwf : StoreWF s)
    (hcl : createLoop env userId s (computeToAdd (userRows s userId) input) =
      (none, s1, clog))
    (hsplit : computeToRemove (userRows s userId) input = L1 ++ crK :: L2)
    (hok : ∀ cr ∈ L1, env.removeFails cr.id = none)
    (hfail : env.removeFails crK.id = some msg) :
    (saveUserRoles env s userId input).error =
      some (.internalServerError "error.channel-role-deletion-failed"
        (messageOrUnknown (some msg) "Unknown error")) ∧
    (saveUserRoles env s userId input).removeAttempts =
      L1.map ChannelRole.id ++ [crK.id] ∧
    (saveUserRoles env s userId input).state.rows =
      s1.rows.filter (fun r => L1.all (fun cr => r.id != cr.id)) :=
  save_fail_spec hwf hcl hsplit hok hfail

theorem c4_witness :
    (saveUserRoles envFail rowStore (ID.num 42) []).error =
      some (.internalServerError "error.channel-role-deletion-failed"
        (messageOrUnknown (some "boom") "Unknown error")) ∧
    (saveUserRoles envFail rowStore (ID.num 42) []).removeAttempts = [0] ∧
    (saveUserRoles envFail rowStore (ID.num 42) []).state.rows = [rowA] := by
  have h := c4_deletion_failure_aborts envFail rowStore (ID.num 42) [] [] [] rowA
    "boom" rowStore [] ⟨by decide, by decide⟩ (by decide) (by decide) (by decide)
    (by decide)
  exact h

/-- C8: the toRemove deletions are issued one at a time in the order the diff
was computed; when the k-th deletion fails at the store level, the delete calls
issued are exactly the first k+1 of the diff order, the first k removals remain
applied, and no later deletion is attempted. -/
theorem c8_sequential_removals (env : Env) (s : StoreState) (userId : ID)
    (input : List ChannelRoleInput) (k : Nat) (msg : String)
    (s1 : StoreState) (clog : List ChannelRoleInput)
    (hwf : StoreWF s)
    (hcl : createLoop env userId s (computeToAdd (userRows s userId) input) =
      (none, s1, clog))
    (hk : k < (computeToRemove (userRows s userId) input).length)
    (hok : ∀ cr ∈ (computeToRemove (userRows s userId) input).take k,
      env.removeFails cr.id = none)
    (hfail : env.removeFails
      ((computeToRemove (userRows s userId) input).get ⟨k, hk⟩).id = some msg) :
    (saveUserRoles env s userId input).error =
      some (.internalServerError "error.channel-role-deletion-failed"
        (messageOrUnknown (some msg) "Unknown error")) ∧
    (saveUserRoles env s userId input).removeAttempts =
      ((computeToRemove (userRows s userId) input).map ChannelRole.id).take (k + 1) ∧
    (saveUserRoles env s userId input).state.rows =
      s1.rows.filter (fun r =>
        ((computeToRemove (userRows s userId) input).take k).all
          (fun cr => r.id != cr.id)) := by
  have hsplit : computeToRemove (userRows s userId) input =
      (computeToRemove (userRows s userId) input).take k ++
        (computeToRemove (userRows s userId) input).get ⟨k, hk⟩ ::
          (computeToRemove (userRows s userId) input).drop (k + 1) := by
    conv_lhs => rw [← List.take_append_drop k (computeToRemove (userRows s userId) input)]
    rw [List.drop_eq_getElem_cons hk, List.get_eq_getElem]
  obtain ⟨he, hatt, hst⟩ := save_fail_spec hwf hcl hsplit hok hfail
  refine ⟨he, ?_, hst⟩
  rw [hatt, ← List.map_take, ← List.concat_eq_append, List.get_eq_getElem,
    ← List.map_concat, List.take_concat_get]

theorem c8_witness :
    (saveUserRoles envFail rowStore (ID.num 42) []).error =
      some (.internalServerError "error.channel-role-deletion-failed"
        (messageOrUnknown (some "boom") "Unknown error")) ∧
    (saveUserRoles envFail rowStore (ID.num 42) []).removeAttempts =
      ((computeToRemove (userRows rowStore (ID.num 42)) []).map ChannelRole.id).take 1 ∧
    (saveUserRoles envFail rowStore (ID.num 42) []).state.rows =
      rowStore.rows.filter (fun r =>
        ((computeToRemove (userRows rowStore (ID.num 42)) []).take 0).all
          (fun cr => r.id != cr.id)) := by
  have h := c8_sequential_removals envFail rowStore (ID.num 42) [] 0 "boom" rowStore []
    ⟨by decide, by decide⟩ (by decide) (by decide) (by decide) (by decide)
  exact h

/-- C10: within one saveUserRoles invocation, any pair for which a creation is
issued and any current association for which a deletion is issued have distinct
(channelId, roleId) pairs under the id-normalizing equality. -/
theorem c10_add_remove_disjoint (env : Env) (s : StoreState) (userId : ID)
    (input : List ChannelRoleInput) (p : ChannelRoleInput) (cr : ChannelRole)
    (hp : p ∈ (saveUserRoles env s userId input).created)
    (hcr : cr ∈ computeToRemove (userRows s userId) input)
    (hdel : cr.id ∈ (saveUserRoles env s userId input).removeAttempts) :
    inputPair p ≠ rowPair cr := by
  have hpA : p ∈ computeToAdd (userRows s userId) input := by
    rcases hcl : createLoop env userId s (computeToAdd (userRows s userId) input)
      with ⟨e, s1, log⟩
    cases e with
    | some e =>
      rw [save_eq_of_createLoop_err hcl] at hp
      exact createLoop_log_mem env userId _ s p (by rw [hcl]; exact hp)
    | none =>
      rw [save_eq_of_createLoop_ok hcl] at hp
      exact createLoop_log_mem env userId _ s p (by rw [hcl]; exact hp)
  obtain ⟨hpin, hnomatch⟩ := mem_computeToAdd.mp hpA
  obtain ⟨hcrcur, -⟩ := mem_computeToRemove.mp hcr
  intro hEq
  exact hnomatch cr hcrcur hEq.symm

theorem c10_witness :
    inputPair ⟨ID.num 2, ID.num 20⟩ ≠ rowPair rowA :=
  c10_add_remove_disjoint envA rowStore (ID.num 42) [⟨ID.num 2, ID.num 20⟩]
    ⟨ID.num 2, ID.num 20⟩ rowA (by decide) (by decide) (by decide)

end ChannelRolePlugin
